import Mathlib

/-!
Verification of the house-cusp computation engine of
`src/src/calculate_houses.py` (the Skyfield formula path of
`calculate_houses`), shallowly embedded over the rationals.

Python float arithmetic is modelled by exact rational arithmetic; the
transcendental trigonometric leaves (`ra_dec_from_lambda`,
`rising_hour_angle`, which are pure real functions of their arguments)
are abstracted as an oracle parameter `TrigOracle`, since every property
proved here is independent of their values.  All control flow, windowing,
modular arithmetic and cusp assembly is translated literally from the
source.
-/

namespace CalculateHouses

/-- Python float modulo `x % y` (flooring remainder), as used throughout
`calculate_houses.py`, modelled over `ℚ`: `x - y * ⌊x / y⌋`. -/
def pymod (x y : ℚ) : ℚ := x - y * (⌊x / y⌋ : ℤ)

/-- `normalize_deg` (line 283): `v = x % 360.0; return v + 360.0 if v < 0 else v`. -/
def normalize_deg (x : ℚ) : ℚ :=
  let v := pymod x 360
  if v < 0 then v + 360 else v

/-- `circ_diff` (line 287): circular difference `(a - b + 180.0) % 360.0 - 180.0`. -/
def circ_diff (a b : ℚ) : ℚ := pymod (a - b + 180) 360 - 180

lemma pymod_eq_fract (x y : ℚ) (hy : y ≠ 0) : pymod x y = y * Int.fract (x / y) := by
  unfold pymod
  rw [Int.fract]
  field_simp

lemma pymod_nonneg (x y : ℚ) (hy : 0 < y) : 0 ≤ pymod x y := by
  rw [pymod_eq_fract x y hy.ne']
  exact mul_nonneg hy.le (Int.fract_nonneg _)

lemma pymod_lt (x y : ℚ) (hy : 0 < y) : pymod x y < y := by
  rw [pymod_eq_fract x y hy.ne']
  calc y * Int.fract (x / y) < y * 1 := by
        exact mul_lt_mul_of_pos_left (Int.fract_lt_one _) hy
    _ = y := mul_one y

lemma pymod360_nonneg (x : ℚ) : 0 ≤ pymod x 360 := pymod_nonneg x 360 (by norm_num)

lemma pymod360_lt (x : ℚ) : pymod x 360 < 360 := pymod_lt x 360 (by norm_num)

lemma pymod360_add_int (x : ℚ) (n : ℤ) : pymod (x + 360 * n) 360 = pymod x 360 := by
  rw [pymod_eq_fract _ 360 (by norm_num), pymod_eq_fract x 360 (by norm_num)]
  have : (x + 360 * n) / 360 = x / 360 + n := by field_simp; ring
  rw [this, Int.fract_add_int]

lemma pymod360_self (x : ℚ) (h0 : 0 ≤ x) (h1 : x < 360) : pymod x 360 = x := by
  unfold pymod
  have hfl : ⌊x / 360⌋ = 0 := by
    rw [Int.floor_eq_zero_iff]
    constructor
    · positivity
    · rw [div_lt_one (by norm_num)]; exact h1
  rw [hfl]
  push_cast
  ring

/-- `pymod _ 360` only depends on its argument modulo the reduction it
itself performs. -/
lemma pymod360_pymod_add (x c : ℚ) : pymod (pymod x 360 + c) 360 = pymod (x + c) 360 := by
  have hx : pymod x 360 + c = (x + c) + 360 * ((-⌊x / 360⌋ : ℤ) : ℚ) := by
    unfold pymod; push_cast; ring
  rw [hx, pymod360_add_int]

lemma normalize_deg_eq_pymod (x : ℚ) : normalize_deg x = pymod x 360 := by
  unfold normalize_deg
  simp [not_lt.2 (pymod360_nonneg x)]

lemma normalize_deg_nonneg (x : ℚ) : 0 ≤ normalize_deg x := by
  rw [normalize_deg_eq_pymod]; exact pymod360_nonneg x

lemma normalize_deg_lt (x : ℚ) : normalize_deg x < 360 := by
  rw [normalize_deg_eq_pymod]; exact pymod360_lt x

lemma normalize_deg_add (x c : ℚ) :
    normalize_deg (normalize_deg x + c) = normalize_deg (x + c) := by
  rw [normalize_deg_eq_pymod, normalize_deg_eq_pymod, normalize_deg_eq_pymod,
    pymod360_pymod_add]

lemma circ_diff_lower (a b : ℚ) : -180 ≤ circ_diff a b := by
  unfold circ_diff
  have := pymod360_nonneg (a - b + 180)
  linarith

lemma circ_diff_upper (a b : ℚ) : circ_diff a b < 180 := by
  unfold circ_diff
  have := pymod360_lt (a - b + 180)
  linarith

lemma circ_diff_add_int_left (a b : ℚ) (n : ℤ) :
    circ_diff (a + 360 * n) b = circ_diff a b := by
  unfold circ_diff
  have : a + 360 * n - b + 180 = (a - b + 180) + 360 * n := by ring
  rw [this, pymod360_add_int]

lemma circ_diff_norm_left (a b : ℚ) : circ_diff (normalize_deg a) b = circ_diff a b := by
  have ha : normalize_deg a = a + 360 * ((-⌊a / 360⌋ : ℤ) : ℚ) := by
    rw [normalize_deg_eq_pymod]; unfold pymod; push_cast; ring
  rw [ha, circ_diff_add_int_left]

lemma circ_diff_norm_right (a b : ℚ) : circ_diff a (normalize_deg b) = circ_diff a b := by
  have hb : normalize_deg b = b + 360 * ((-⌊b / 360⌋ : ℤ) : ℚ) := by
    rw [normalize_deg_eq_pymod]; unfold pymod; push_cast; ring
  unfold circ_diff
  rw [hb]
  have harg : a - (b + 360 * ((-⌊b / 360⌋ : ℤ) : ℚ)) + 180
      = (a - b + 180) + 360 * ((⌊b / 360⌋ : ℤ) : ℚ) := by
    push_cast; ring
  rw [harg, pymod360_add_int]

/-- `circ_diff (b + r) b = r` for a representative already in `[-180, 180)`. -/
lemma circ_diff_of_small (b r : ℚ) (h0 : -180 ≤ r) (h1 : r < 180) :
    circ_diff (b + r) b = r := by
  unfold circ_diff
  have : b + r - b + 180 = r + 180 := by ring
  rw [this, pymod360_self (r + 180) (by linarith) (by linarith)]
  ring

/-- `zodiac_signs_jp` from `calculate_planets.py` (line 17). -/
def zodiac_signs_jp : List String :=
  ["牡羊座", "牡牛座", "双子座", "蟹座", "獅子座", "乙女座",
   "天秤座", "蠍座", "射手座", "山羊座", "水瓶座", "魚座"]

/-- `get_zodiac_sign_jp` from `calculate_planets.py` (line 22):
`zodiac_signs_jp[int(longitude_deg // 30) % 12]`.  Python `//` is the
flooring division and `% 12` on an `int` is the nonnegative remainder,
which is Lean's `Int.emod` for a positive modulus. -/
def get_zodiac_sign_jp (longitude_deg : ℚ) : String :=
  zodiac_signs_jp.getD ((⌊longitude_deg / 30⌋ % 12).toNat) ""

/-- One entry of the `houses` list built by `calculate_houses`. -/
structure House where
  number : ℕ
  sign : String
  longitude : ℚ
deriving DecidableEq

/-- One of the `ascendant` / `descendant` / `mc` / `ic` records. -/
structure AnglePoint where
  sign : String
  longitude : ℚ
deriving DecidableEq

/-- The dictionary returned by `calculate_houses` (lines 606-624). -/
structure HousesResult where
  ascendant : AnglePoint
  descendant : AnglePoint
  mc : AnglePoint
  ic : AnglePoint
  houses : List House
deriving DecidableEq

/-- The `system == "equal"` branch (lines 241-249): twelve entries with
`cusp_longitude = (asc_longitude + i * 30) % 360` and `number = i + 1`. -/
def equalHouses (asc_longitude : ℚ) : List House :=
  (List.range 12).map fun (i : ℕ) =>
    let cusp_longitude := pymod (asc_longitude + (i : ℚ) * 30) 360
    { number := i + 1
      sign := get_zodiac_sign_jp cusp_longitude
      longitude := cusp_longitude }

/-- The `house_cusps` list of the `system == "koch"` branch (lines 255-268),
in house order 1..12. -/
def kochCusps (asc_longitude mc_longitude : ℚ) : List ℚ :=
  [ asc_longitude,
    pymod (asc_longitude + 30) 360,
    pymod (asc_longitude + 60) 360,
    pymod (mc_longitude + 180) 360,
    pymod (asc_longitude + 120) 360,
    pymod (asc_longitude + 150) 360,
    pymod (asc_longitude + 180) 360,
    pymod (asc_longitude + 210) 360,
    pymod (asc_longitude + 240) 360,
    mc_longitude,
    pymod (asc_longitude + 300) 360,
    pymod (asc_longitude + 330) 360 ]

/-- The `system == "koch"` branch (lines 250-274): `enumerate(house_cusps)`
packaged as house entries with `number = i + 1`. -/
def kochHouses (asc_longitude mc_longitude : ℚ) : List House :=
  (kochCusps asc_longitude mc_longitude).enum.map fun p =>
    { number := p.1 + 1
      sign := get_zodiac_sign_jp p.2
      longitude := p.2 }

/-- Cusp longitude of house `n` (1-based) in the Koch branch, read off the
`house_cusps` list. -/
def kochLong (asc_longitude mc_longitude : ℚ) (n : ℕ) : ℚ :=
  (kochCusps asc_longitude mc_longitude).getD (n - 1) 0

/-- The transcendental trigonometric primitives of the Placidus branch,
abstracted as an oracle: `alpha lam` and `delta lam` are the right
ascension and declination computed by `ra_dec_from_lambda(lam, obliquity)`
(lines 292-311, pure real trigonometry at the fixed obliquity of the
request), and `h0 delta phi` is `rising_hour_angle(delta, phi)`
(lines 313-323), which is `none` exactly when the point is circumpolar. -/
structure TrigOracle where
  alpha : ℚ → ℚ
  delta : ℚ → ℚ
  h0 : ℚ → ℚ → Option ℚ

/-- The root equation `F` shared by `solve_lambda_by_OA` (lines 352-360)
and `F_val` of `solve_with_fallback` (lines 421-429):
`F(λ) = circ_diff(base, X(λ)) − sign_factor·n_frac·H0(λ)` with
`X(λ) = normalize_deg(α ± H0)` by the `use_descension` flag, and `none`
when `H0` is undefined. -/
def Fplacidus (o : TrigOracle) (latitude n_frac base_ramc sign_factor : ℚ)
    (use_descension : Bool) (lam_deg : ℚ) : Option ℚ :=
  let alpha := o.alpha lam_deg
  let delta := o.delta lam_deg
  match o.h0 delta latitude with
  | none => none
  | some h0 =>
    let x_val := if use_descension then normalize_deg (alpha + h0)
                 else normalize_deg (alpha - h0)
    let lhs := circ_diff (normalize_deg base_ramc) x_val
    let rhs := sign_factor * n_frac * h0
    some (lhs - rhs)

/-- Fuel that provably suffices for the `iter_window` generator
(lines 363-373) to reach its stop condition, see
`iter_window_reaches_window_end`. -/
def windowFuel (step : ℚ) : ℕ := (⌊720 / step⌋).toNat + 2

/-- The loop body of the `iter_window` generator (lines 369-373): starting
from the previously yielded `angle`, repeatedly yield
`normalize_deg (angle + step)` until the yielded angle is within `step/2`
of the window end.  The fuel bound only truncates runs that never reach
the stop condition; `iter_window_reaches_window_end` shows the condition
is always reached first for the fuel used. -/
def windowListFrom (end_n step : ℚ) : ℚ → ℕ → List ℚ
  | _, 0 => []
  | angle, fuel + 1 =>
    let a2 := normalize_deg (angle + step)
    if |circ_diff a2 end_n| ≤ step / 2 then [a2]
    else a2 :: windowListFrom end_n step a2 fuel

/-- `iter_window` (lines 363-373): the first yielded angle is
`normalize_deg (start + step)` (the window start itself is skipped), then
the generator steps counter-clockwise until within half a step of the
window end. -/
def iter_window (start end_ step : ℚ) (fuel : ℕ) : List ℚ :=
  normalize_deg (start + step) ::
    windowListFrom (normalize_deg end_) step (normalize_deg (start + step)) fuel

/-- The 30-iteration bisection loop of `solve_lambda_by_OA`
(lines 388-405): `none` evaluations move `lo` up keeping `flo`; a small
residual returns the midpoint; otherwise the bracketing half is kept.  The
final return is `normalize_deg ((lo + hi) / 2)`. -/
def bisectLoop (F : ℚ → Option ℚ) : ℕ → ℚ → ℚ → ℚ → ℚ → ℚ
  | 0, lo, hi, _, _ => normalize_deg ((lo + hi) / 2)
  | fuel + 1, lo, hi, flo, fhi =>
    let mid := (lo + hi) / 2
    match F mid with
    | none => bisectLoop F fuel mid hi flo fhi
    | some fmid =>
      if |fmid| < 1 / 1000000 then normalize_deg mid
      else if flo * fmid ≤ 0 then bisectLoop F fuel lo mid flo fmid
      else bisectLoop F fuel mid hi fmid fhi

/-- The scan of `solve_lambda_by_OA` over the window angles
(lines 375-406): track the previous sample, skip pairs with an undefined
side, return an exact zero directly, and bisect on a sign change. -/
def scanForRoot (F : ℚ → Option ℚ) : Option ℚ → Option ℚ → List ℚ → Option ℚ
  | _, _, [] => none
  | prev_lam, prev_val, lam :: rest =>
    let val := F lam
    match prev_lam, prev_val with
    | some pl, some pv =>
      match val with
      | some v =>
        if pv = 0 then some pl
        else if v = 0 then some lam
        else if pv * v < 0 then some (bisectLoop F 30 pl lam pv v)
        else scanForRoot F (some lam) val rest
      | none => scanForRoot F (some lam) val rest
    | _, _ => scanForRoot F (some lam) val rest

/-- `solve_lambda_by_OA` (lines 336-411), with the root equation already
instantiated: scan the window and bisect on the first sign change; `none`
when no sign change is found. -/
def solve_lambda_by_OA (F : ℚ → Option ℚ) (win_start win_end init_step_deg : ℚ) :
    Option ℚ :=
  scanForRoot F none none (iter_window win_start win_end init_step_deg
    (windowFuel init_step_deg))

/-- The per-sign best-candidate update of the dense-sampling loop
(lines 437-442): an undefined evaluation keeps the current best, a
defined one replaces it when strictly smaller in `|F|`. -/
def bestUpd (Fv : ℚ → ℚ → Option ℚ) (angle : ℚ) (b : Option (ℚ × ℚ × ℚ))
    (s : ℚ) : Option (ℚ × ℚ × ℚ) :=
  match Fv angle s with
  | none => b
  | some fv =>
    let af := |fv|
    match b with
    | none => some (af, angle, s)
    | some (bf, bl, bs) =>
      if af < bf then some (af, angle, s) else some (bf, bl, bs)

/-- The dense-sampling loop of `solve_with_fallback` (lines 432-446):
walk the window in `sample_step` increments, trying every sign option at
each angle and keeping the argmin of `|F|`; the loop stops within half a
step of the window end or when the guard counter expires (the fuel here
equals the guard bound `int(360.0/sample_step) + 5` plus the final pass). -/
def sampleLoop (Fv : ℚ → ℚ → Option ℚ) (sign_factor_opts : List ℚ)
    (end_n sample_step : ℚ) : ℚ → Option (ℚ × ℚ × ℚ) → ℕ → Option (ℚ × ℚ × ℚ)
  | _, best, 0 => best
  | angle, best, fuel + 1 =>
    let best2 := sign_factor_opts.foldl (bestUpd Fv angle) best
    let a2 := normalize_deg (angle + sample_step)
    if |circ_diff a2 end_n| ≤ sample_step / 2 then best2
    else sampleLoop Fv sign_factor_opts end_n sample_step a2 best2 fuel

/-- The 20-iteration secant refinement of `solve_with_fallback`
(lines 456-471): stop on a flat secant, clamp out-of-window iterates to
the window midpoint, stop on an undefined evaluation, and return early on
a small residual. -/
def secantLoop (F1 : ℚ → Option ℚ) (win_start win_end : ℚ) :
    ℕ → ℚ → ℚ → ℚ → ℚ → ℚ
  | 0, _, _, lam1, _ => lam1
  | fuel + 1, lam0, f0, lam1, f1 =>
    if f1 - f0 = 0 then lam1
    else
      let lam2 := normalize_deg (lam1 - f1 * (lam1 - lam0) / (f1 - f0))
      let lam2 := if circ_diff lam2 win_start < 0 ∨ circ_diff win_end lam2 < 0
                  then normalize_deg ((win_start + win_end) / 2) else lam2
      match F1 lam2 with
      | none => lam1
      | some f2 =>
        if |f2| < 1 / 1000000 then lam2
        else secantLoop F1 win_start win_end fuel lam1 f1 lam2 f2

/-- `solve_with_fallback` (lines 414-471): dense sampling over the window
with both sign options, then secant refinement from the argmin; `none`
only when every sample is undefined. -/
def solve_with_fallback (Fv : ℚ → ℚ → Option ℚ)
    (win_start win_end sample_step : ℚ) : Option ℚ :=
  let end_n := normalize_deg win_end
  let fuel := (⌊(360 : ℚ) / sample_step⌋).toNat + 6
  match sampleLoop Fv [1, -1] end_n sample_step (normalize_deg win_start) none fuel with
  | none => none
  | some (_, lam0, s0) =>
    let lam1 := normalize_deg (lam0 + sample_step)
    match Fv lam0 s0, Fv lam1 s0 with
    | some f0, some f1 =>
      some (secantLoop (fun l => Fv l s0) win_start win_end 20 lam0 f0 lam1 f1)
    | _, _ => some lam0

/-- `win_ccw` (line 474). -/
def win_ccw (s e : ℚ) : ℚ × ℚ := (normalize_deg s, normalize_deg e)

/-- The `if cusp is None: cusp = solve_with_fallback(...)` fill-in applied
to cusps 3 and 2 (lines 538-541 and 551-554): keep a solved value,
otherwise take the fallback result. -/
def orFallback (x fb : Option ℚ) : Option ℚ :=
  match x with
  | some v => some v
  | none => fb

/-- The four numerically solved Placidus cusps. -/
structure PlacidusSolved where
  c11 : Option ℚ
  c12 : Option ℚ
  c3 : Option ℚ
  c2 : Option ℚ

/-- The solver chain of the Placidus branch (lines 477-555): cusp 11 and
cusp 12 from the windowed scan only; cusp 3 and cusp 2 from the windowed
scan with the dense-sampling fallback on failure; the windows for 12 and
2 are narrowed by the preceding solved cusp when available. -/
def placidusSolved (o : TrigOracle) (latitude asc_longitude mc_longitude ramc : ℚ) :
    PlacidusSolved :=
  let asc := normalize_deg asc_longitude
  let mc := normalize_deg mc_longitude
  let ic := normalize_deg (mc + 180)
  let win_asc_ic := win_ccw asc ic
  let win_mc_asc := win_ccw mc asc
  let c11 := solve_lambda_by_OA (Fplacidus o latitude (2/3) ramc 1 false)
    win_mc_asc.1 win_mc_asc.2 (1/2)
  let c12 := solve_lambda_by_OA (Fplacidus o latitude (1/3) ramc 1 false)
    (c11.getD win_mc_asc.1) win_mc_asc.2 (1/2)
  let c3 := orFallback
    (solve_lambda_by_OA (Fplacidus o latitude (2/3) (ramc + 180) 1 true)
      win_asc_ic.1 win_asc_ic.2 (1/10))
    (solve_with_fallback
      (fun lam s => Fplacidus o latitude (2/3) (ramc + 180) s true lam)
      win_asc_ic.1 win_asc_ic.2 (1/20))
  let c2 := orFallback
    (solve_lambda_by_OA (Fplacidus o latitude (1/3) (ramc + 180) 1 true)
      win_asc_ic.1 (c3.getD win_asc_ic.2) (1/10))
    (solve_with_fallback
      (fun lam s => Fplacidus o latitude (1/3) (ramc + 180) s true lam)
      win_asc_ic.1 (c3.getD win_asc_ic.2) (1/20))
  ⟨c11, c12, c3, c2⟩

/-- `cv_map` (lines 495-569): the dictionary of solved cusps, with
1, 4, 7, 10 taken from ASC/IC/DSC/MC and 5, 6, 8, 9 filled by antipodal
reflection of 11, 12, 2, 3 when those were solved. -/
def cv_map (asc_longitude mc_longitude : ℚ) (s : PlacidusSolved) : ℕ → Option ℚ
  | 1 => some (normalize_deg asc_longitude)
  | 2 => s.c2
  | 3 => s.c3
  | 4 => some (normalize_deg (mc_longitude + 180))
  | 5 => s.c11.map fun v => normalize_deg (v + 180)
  | 6 => s.c12.map fun v => normalize_deg (v + 180)
  | 7 => some (normalize_deg (asc_longitude + 180))
  | 8 => s.c2.map fun v => normalize_deg (v + 180)
  | 9 => s.c3.map fun v => normalize_deg (v + 180)
  | 10 => some (normalize_deg mc_longitude)
  | 11 => s.c11
  | 12 => s.c12
  | _ => none

/-- `equal_fallback` (line 581): the Equal-house value at 0-based index `i`. -/
def equal_fallback (asc_longitude : ℚ) (i : ℕ) : ℚ :=
  normalize_deg (asc_longitude + (i : ℚ) * 30)

/-- `number_to_long` (lines 584-591): missing cusps fall back to
`equal_fallback[(i - 1) % 12]`, solved cusps are normalized. -/
def number_to_long (asc_longitude mc_longitude : ℚ) (s : PlacidusSolved) (i : ℕ) : ℚ :=
  match cv_map asc_longitude mc_longitude s i with
  | none => equal_fallback asc_longitude ((i - 1) % 12)
  | some v => normalize_deg v

/-- The Placidus branch houses list (lines 593-599). -/
def placidusHouses (asc_longitude mc_longitude : ℚ) (s : PlacidusSolved) : List House :=
  (List.range 12).map fun (k : ℕ) =>
    let lon := number_to_long asc_longitude mc_longitude s (k + 1)
    { number := k + 1
      sign := get_zodiac_sign_jp lon
      longitude := lon }

/-- The formula path of `calculate_houses` from the house-system dispatch
on (lines 240-624), as a function of the already-derived ASC/MC/RAMC
angles and the trigonometric oracle.  The dispatch compares the `system`
string against the exact literals `"equal"` and `"koch"`; anything else
takes the Placidus branch.  The source performs no validation of
`latitude`, which is consumed only inside the Placidus root equation. -/
def calculate_houses_formula (o : TrigOracle) (system : String)
    (latitude asc_longitude mc_longitude ramc : ℚ) : HousesResult :=
  let houses :=
    if system = "equal" then equalHouses asc_longitude
    else if system = "koch" then kochHouses asc_longitude mc_longitude
    else placidusHouses asc_longitude mc_longitude
      (placidusSolved o latitude asc_longitude mc_longitude ramc)
  let dc_longitude := pymod (asc_longitude + 180) 360
  let ic_longitude := pymod (mc_longitude + 180) 360
  { ascendant := ⟨get_zodiac_sign_jp asc_longitude, asc_longitude⟩
    descendant := ⟨get_zodiac_sign_jp dc_longitude, dc_longitude⟩
    mc := ⟨get_zodiac_sign_jp mc_longitude, mc_longitude⟩
    ic := ⟨get_zodiac_sign_jp ic_longitude, ic_longitude⟩
    houses := houses }

lemma pymod360_idem (x : ℚ) : pymod (pymod x 360) 360 = pymod x 360 :=
  pymod360_self _ (pymod360_nonneg x) (pymod360_lt x)

lemma pymod_add_360 (x : ℚ) : pymod (x + 360) 360 = pymod x 360 := by
  have h : x + 360 = x + 360 * ((1 : ℤ) : ℚ) := by push_cast; ring
  rw [h, pymod360_add_int]

/-- One antipodal pair of `number_to_long`: the mirrored cusp against its
source cusp, whether solved (`some`) or both falling back to Equal
values 180° apart. -/
lemma antipode_pair (asc : ℚ) (c : Option ℚ) (jm js : ℕ) (n : ℤ)
    (hj : (jm : ℚ) * 30 + 180 = (js : ℚ) * 30 + 360 * (n : ℚ)) :
    (match c.map (fun v => normalize_deg (v + 180)) with
      | none => equal_fallback asc js
      | some v => normalize_deg v)
      = pymod ((match c with
          | none => equal_fallback asc jm
          | some v => normalize_deg v) + 180) 360 := by
  cases c with
  | none =>
    show equal_fallback asc js = pymod (equal_fallback asc jm + 180) 360
    unfold equal_fallback
    rw [normalize_deg_eq_pymod, normalize_deg_eq_pymod, pymod360_pymod_add]
    have h : asc + (jm : ℚ) * 30 + 180 = (asc + (js : ℚ) * 30) + 360 * ((n : ℤ) : ℚ) := by
      linarith
    rw [h, pymod360_add_int]
  | some v =>
    show normalize_deg (normalize_deg (v + 180)) = pymod (normalize_deg v + 180) 360
    rw [normalize_deg_eq_pymod, normalize_deg_eq_pymod, normalize_deg_eq_pymod,
      pymod360_idem, pymod360_pymod_add]

/-- C1: in the Placidus branch, for any outcome of the numeric solver
(including missing cusps replaced by the Equal fallback), the output
longitudes satisfy cusp 5 = cusp 11 + 180, cusp 6 = cusp 12 + 180,
cusp 8 = cusp 2 + 180 and cusp 9 = cusp 3 + 180, all modulo 360 and
exactly (hence within 1e-6°). -/
theorem placidus_antipodal_pairs (asc mc : ℚ) (s : PlacidusSolved) :
    number_to_long asc mc s 5 = pymod (number_to_long asc mc s 11 + 180) 360
  ∧ number_to_long asc mc s 6 = pymod (number_to_long asc mc s 12 + 180) 360
  ∧ number_to_long asc mc s 8 = pymod (number_to_long asc mc s 2 + 180) 360
  ∧ number_to_long asc mc s 9 = pymod (number_to_long asc mc s 3 + 180) 360 := by
  refine ⟨?_, ?_, ?_, ?_⟩
  · have h := antipode_pair asc s.c11 10 4 1 (by norm_num)
    simpa [number_to_long, cv_map, Nat.mod_eq_of_lt] using h
  · have h := antipode_pair asc s.c12 11 5 1 (by norm_num)
    simpa [number_to_long, cv_map, Nat.mod_eq_of_lt] using h
  · have h := antipode_pair asc s.c2 1 7 0 (by norm_num)
    simpa [number_to_long, cv_map, Nat.mod_eq_of_lt] using h
  · have h := antipode_pair asc s.c3 2 8 0 (by norm_num)
    simpa [number_to_long, cv_map, Nat.mod_eq_of_lt] using h

/-- C3: in the Equal branch, the cusp of house `i` is
`(ASC + (i-1)*30) mod 360` where ASC is the ascendant longitude of the
same result — exactly over the rationals, hence within any floating
tolerance. -/
theorem equal_cusp_formula (o : TrigOracle) (latitude asc_longitude mc_longitude ramc : ℚ)
    (i : ℕ) (h1 : 1 ≤ i) (h2 : i ≤ 12) :
    (((calculate_houses_formula o "equal" latitude asc_longitude mc_longitude ramc).houses.get?
        (i - 1)).map House.longitude)
      = some (pymod
          ((calculate_houses_formula o "equal" latitude asc_longitude mc_longitude ramc).ascendant.longitude
            + ((i - 1 : ℕ) : ℚ) * 30) 360) := by
  have hlt : i - 1 < 12 := by omega
  simp only [calculate_houses_formula, equalHouses, if_pos, List.get?_eq_getElem?,
    List.getElem?_map, List.getElem?_range hlt, Option.map_some']

/-- Witness for `equal_cusp_formula` at `i = 2`. -/
theorem equal_cusp_formula_witness :
    (((calculate_houses_formula ⟨fun _ => 0, fun _ => 0, fun _ _ => none⟩ "equal" 35 50 140 60).houses.get?
        (2 - 1)).map House.longitude)
      = some (pymod
          ((calculate_houses_formula ⟨fun _ => 0, fun _ => 0, fun _ _ => none⟩ "equal" 35 50 140 60).ascendant.longitude
            + ((2 - 1 : ℕ) : ℚ) * 30) 360) :=
  equal_cusp_formula ⟨fun _ => 0, fun _ => 0, fun _ _ => none⟩ 35 50 140 60 2
    (by norm_num) (by norm_num)

/-- C4: in the Placidus branch, whenever the solver map holds no value for
house `i`, the output longitude of house `i` is the Equal-house value
`(ASC + (i-1)*30) mod 360` at that same index. -/
theorem placidus_missing_cusp_gets_equal_value (asc_longitude mc_longitude : ℚ)
    (s : PlacidusSolved) (i : ℕ) (h1 : 1 ≤ i) (h2 : i ≤ 12)
    (hmiss : cv_map asc_longitude mc_longitude s i = none) :
    number_to_long asc_longitude mc_longitude s i
      = pymod (asc_longitude + ((i - 1 : ℕ) : ℚ) * 30) 360 := by
  unfold number_to_long
  rw [hmiss]
  show equal_fallback asc_longitude ((i - 1) % 12) = _
  rw [Nat.mod_eq_of_lt (by omega)]
  unfold equal_fallback
  rw [normalize_deg_eq_pymod]

/-- Witness for `placidus_missing_cusp_gets_equal_value` at house 11 with
every solver result missing. -/
theorem placidus_missing_cusp_gets_equal_value_witness :
    number_to_long 10 20 ⟨none, none, none, none⟩ 11
      = pymod (10 + ((11 - 1 : ℕ) : ℚ) * 30) 360 :=
  placidus_missing_cusp_gets_equal_value 10 20 ⟨none, none, none, none⟩ 11
    (by norm_num) (by norm_num) rfl

/-- C6: any system string other than the exact literals `"equal"` and
`"koch"` takes the Placidus branch of the dispatch, deterministically
producing the Placidus houses list. -/
theorem unrecognized_system_takes_placidus (o : TrigOracle)
    (latitude asc_longitude mc_longitude ramc : ℚ) (system : String)
    (h1 : system ≠ "equal") (h2 : system ≠ "koch") :
    (calculate_houses_formula o system latitude asc_longitude mc_longitude ramc).houses
      = placidusHouses asc_longitude mc_longitude
          (placidusSolved o latitude asc_longitude mc_longitude ramc) := by
  simp only [calculate_houses_formula]
  rw [if_neg h1, if_neg h2]

/-- Witness for `unrecognized_system_takes_placidus` on the token
`"WholeSign"`. -/
theorem unrecognized_system_takes_placidus_witness :
    (calculate_houses_formula ⟨fun _ => 0, fun _ => 0, fun _ _ => none⟩ "WholeSign" 35 10 100 60).houses
      = placidusHouses 10 100
          (placidusSolved ⟨fun _ => 0, fun _ => 0, fun _ _ => none⟩ 35 10 100 60) :=
  unrecognized_system_takes_placidus ⟨fun _ => 0, fun _ => 0, fun _ _ => none⟩ 35 10 100 60
    "WholeSign" (by decide) (by decide)

/-- C8 counterexample: when `a - b` is congruent to 180 modulo 360,
`circ_diff` returns `-180`, not `+180`, so its range is not the claimed
half-open interval `(-180, 180]`. -/
theorem circ_diff_antipode_is_neg180 : circ_diff 180 0 = -180 := by
  have h : (180 : ℚ) - 0 + 180 = 0 + 360 * ((1 : ℤ) : ℚ) := by push_cast; ring
  unfold circ_diff
  rw [h, pymod360_add_int, pymod360_self 0 le_rfl (by norm_num)]
  norm_num

/-- C8 amended: `circ_diff` normalizes `a - b` into the half-open
interval `[-180, 180)` (with `-180` attained at antipodal arguments, see
`circ_diff_antipode_is_neg180`). -/
theorem circ_diff_range (a b : ℚ) :
    -180 ≤ circ_diff a b ∧ circ_diff a b < 180 :=
  ⟨circ_diff_lower a b, circ_diff_upper a b⟩

/-- C10: in the Koch branch, every opposite cusp pair is antipodal:
`cusp(i+6) = (cusp(i) + 180) mod 360` for `i = 1..6`, given the source
invariant that the MC longitude is already reduced to `[0, 360)`
(line 213 of the source). -/
theorem koch_opposite_cusps_antipodal (asc_longitude mc_longitude : ℚ)
    (hmc0 : 0 ≤ mc_longitude) (hmc1 : mc_longitude < 360)
    (i : ℕ) (hi1 : 1 ≤ i) (hi2 : i ≤ 6) :
    kochLong asc_longitude mc_longitude (i + 6)
      = pymod (kochLong asc_longitude mc_longitude i + 180) 360 := by
  interval_cases i
  · simp only [kochLong, kochCusps]
    norm_num [List.getD]
  · simp only [kochLong, kochCusps]
    norm_num [List.getD]
    rw [pymod360_pymod_add]
    congr 1
    ring
  · simp only [kochLong, kochCusps]
    norm_num [List.getD]
    rw [pymod360_pymod_add]
    congr 1
    ring
  · simp only [kochLong, kochCusps]
    norm_num [List.getD]
    rw [pymod360_pymod_add]
    have h : mc_longitude + 180 + 180 = mc_longitude + 360 := by ring
    rw [h, pymod_add_360, pymod360_self mc_longitude hmc0 hmc1]
  · simp only [kochLong, kochCusps]
    norm_num [List.getD]
    rw [pymod360_pymod_add]
    congr 1
    ring
  · simp only [kochLong, kochCusps]
    norm_num [List.getD]
    rw [pymod360_pymod_add]
    congr 1
    ring

/-- Witness for `koch_opposite_cusps_antipodal` at the MC pair `i = 4`. -/
theorem koch_opposite_cusps_antipodal_witness :
    kochLong 400 20 (4 + 6) = pymod (kochLong 400 20 4 + 180) 360 :=
  koch_opposite_cusps_antipodal 400 20 (by norm_num) (by norm_num) 4
    (by norm_num) (by norm_num)

lemma number_to_long_bounds (asc_longitude mc_longitude : ℚ) (s : PlacidusSolved)
    (i : ℕ) : 0 ≤ number_to_long asc_longitude mc_longitude s i
      ∧ number_to_long asc_longitude mc_longitude s i < 360 := by
  unfold number_to_long
  cases cv_map asc_longitude mc_longitude s i with
  | none => exact ⟨normalize_deg_nonneg _, normalize_deg_lt _⟩
  | some v => exact ⟨normalize_deg_nonneg _, normalize_deg_lt _⟩

lemma equalHouses_entry (asc_longitude : ℚ) (k : ℕ) (hk : k < 12) :
    ∃ h, (equalHouses asc_longitude).get? k = some h ∧ h.number = k + 1
      ∧ 0 ≤ h.longitude ∧ h.longitude < 360 := by
  refine ⟨⟨k + 1, get_zodiac_sign_jp (pymod (asc_longitude + (k : ℚ) * 30) 360),
    pymod (asc_longitude + (k : ℚ) * 30) 360⟩, ?_, rfl, pymod360_nonneg _, pymod360_lt _⟩
  simp only [equalHouses, List.get?_eq_getElem?, List.getElem?_map,
    List.getElem?_range hk, Option.map_some']

lemma placidusHouses_entry (asc_longitude mc_longitude : ℚ) (s : PlacidusSolved)
    (k : ℕ) (hk : k < 12) :
    ∃ h, (placidusHouses asc_longitude mc_longitude s).get? k = some h
      ∧ h.number = k + 1 ∧ 0 ≤ h.longitude ∧ h.longitude < 360 := by
  refine ⟨⟨k + 1,
    get_zodiac_sign_jp (number_to_long asc_longitude mc_longitude s (k + 1)),
    number_to_long asc_longitude mc_longitude s (k + 1)⟩, ?_, rfl,
    (number_to_long_bounds asc_longitude mc_longitude s (k + 1)).1,
    (number_to_long_bounds asc_longitude mc_longitude s (k + 1)).2⟩
  simp only [placidusHouses, List.get?_eq_getElem?, List.getElem?_map,
    List.getElem?_range hk, Option.map_some']

lemma kochHouses_entry (asc_longitude mc_longitude : ℚ)
    (ha0 : 0 ≤ asc_longitude) (ha1 : asc_longitude < 360)
    (hm0 : 0 ≤ mc_longitude) (hm1 : mc_longitude < 360) (k : ℕ) (hk : k < 12) :
    ∃ h, (kochHouses asc_longitude mc_longitude).get? k = some h ∧ h.number = k + 1
      ∧ 0 ≤ h.longitude ∧ h.longitude < 360 := by
  interval_cases k
  · exact ⟨⟨1, get_zodiac_sign_jp asc_longitude, asc_longitude⟩, rfl, rfl, ha0, ha1⟩
  · exact ⟨⟨2, get_zodiac_sign_jp (pymod (asc_longitude + 30) 360),
      pymod (asc_longitude + 30) 360⟩, rfl, rfl, pymod360_nonneg _, pymod360_lt _⟩
  · exact ⟨⟨3, get_zodiac_sign_jp (pymod (asc_longitude + 60) 360),
      pymod (asc_longitude + 60) 360⟩, rfl, rfl, pymod360_nonneg _, pymod360_lt _⟩
  · exact ⟨⟨4, get_zodiac_sign_jp (pymod (mc_longitude + 180) 360),
      pymod (mc_longitude + 180) 360⟩, rfl, rfl, pymod360_nonneg _, pymod360_lt _⟩
  · exact ⟨⟨5, get_zodiac_sign_jp (pymod (asc_longitude + 120) 360),
      pymod (asc_longitude + 120) 360⟩, rfl, rfl, pymod360_nonneg _, pymod360_lt _⟩
  · exact ⟨⟨6, get_zodiac_sign_jp (pymod (asc_longitude + 150) 360),
      pymod (asc_longitude + 150) 360⟩, rfl, rfl, pymod360_nonneg _, pymod360_lt _⟩
  · exact ⟨⟨7, get_zodiac_sign_jp (pymod (asc_longitude + 180) 360),
      pymod (asc_longitude + 180) 360⟩, rfl, rfl, pymod360_nonneg _, pymod360_lt _⟩
  · exact ⟨⟨8, get_zodiac_sign_jp (pymod (asc_longitude + 210) 360),
      pymod (asc_longitude + 210) 360⟩, rfl, rfl, pymod360_nonneg _, pymod360_lt _⟩
  · exact ⟨⟨9, get_zodiac_sign_jp (pymod (asc_longitude + 240) 360),
      pymod (asc_longitude + 240) 360⟩, rfl, rfl, pymod360_nonneg _, pymod360_lt _⟩
  · exact ⟨⟨10, get_zodiac_sign_jp mc_longitude, mc_longitude⟩, rfl, rfl, hm0, hm1⟩
  · exact ⟨⟨11, get_zodiac_sign_jp (pymod (asc_longitude + 300) 360),
      pymod (asc_longitude + 300) 360⟩, rfl, rfl, pymod360_nonneg _, pymod360_lt _⟩
  · exact ⟨⟨12, get_zodiac_sign_jp (pymod (asc_longitude + 330) 360),
      pymod (asc_longitude + 330) 360⟩, rfl, rfl, pymod360_nonneg _, pymod360_lt _⟩

/-- C2: for every system string and every trigonometric/solver outcome,
the houses list of the formula path has exactly 12 entries, the entry at
0-based index `k` carries house number `k + 1` (so the numbers are
exactly 1..12 in order), and every longitude is a rational number in
`[0, 360)` (in particular never null or NaN).  The hypotheses on the ASC
and MC longitudes are the source invariants established at lines 213 and
234 of `calculate_houses.py`. -/
theorem houses_list_complete (o : TrigOracle) (system : String)
    (latitude asc_longitude mc_longitude ramc : ℚ)
    (ha0 : 0 ≤ asc_longitude) (ha1 : asc_longitude < 360)
    (hm0 : 0 ≤ mc_longitude) (hm1 : mc_longitude < 360) :
    (calculate_houses_formula o system latitude asc_longitude mc_longitude ramc).houses.length = 12
  ∧ ∀ k, k < 12 →
      ∃ h, (calculate_houses_formula o system latitude asc_longitude mc_longitude ramc).houses.get? k
            = some h
        ∧ h.number = k + 1 ∧ 0 ≤ h.longitude ∧ h.longitude < 360 := by
  by_cases he : system = "equal"
  · subst he
    constructor
    · simp [calculate_houses_formula, equalHouses]
    · intro k hk
      simpa [calculate_houses_formula] using equalHouses_entry asc_longitude k hk
  · by_cases hko : system = "koch"
    · subst hko
      constructor
      · simp [calculate_houses_formula, kochHouses, kochCusps]
      · intro k hk
        simpa [calculate_houses_formula] using
          kochHouses_entry asc_longitude mc_longitude ha0 ha1 hm0 hm1 k hk
    · constructor
      · simp [calculate_houses_formula, he, hko, placidusHouses]
      · intro k hk
        simpa [calculate_houses_formula, he, hko] using
          placidusHouses_entry asc_longitude mc_longitude
            (placidusSolved o latitude asc_longitude mc_longitude ramc) k hk

/-- Witness for `houses_list_complete` on the Koch branch. -/
theorem houses_list_complete_witness :
    (calculate_houses_formula ⟨fun _ => 0, fun _ => 0, fun _ _ => none⟩ "koch" 35 10 100 60).houses.length = 12
  ∧ ∀ k, k < 12 →
      ∃ h, (calculate_houses_formula ⟨fun _ => 0, fun _ => 0, fun _ _ => none⟩ "koch" 35 10 100 60).houses.get? k
            = some h
        ∧ h.number = k + 1 ∧ 0 ≤ h.longitude ∧ h.longitude < 360 :=
  houses_list_complete ⟨fun _ => 0, fun _ => 0, fun _ _ => none⟩ "koch" 35 10 100 60
    (by norm_num) (by norm_num) (by norm_num) (by norm_num)

/-- Somewhere within `windowFuel step` steps of size `step`, the walk from
any angle `a` lands within `step / 2` of the (normalized) window end: the
round of `(t + 360) / step` does. -/
lemma window_stop_exists (a e step : ℚ) (h0 : 0 < step) (h1 : step ≤ 1) :
    ∃ i : ℕ, 1 ≤ i ∧ i ≤ windowFuel step ∧
      |circ_diff (normalize_deg (a + (i : ℚ) * step)) (normalize_deg e)| ≤ step / 2 := by
  set t := pymod (e - a) 360 with ht
  have ht0 : 0 ≤ t := pymod360_nonneg _
  have ht1 : t < 360 := pymod360_lt _
  set u := (t + 360) / step with hu
  have hu360 : 360 ≤ u := by
    rw [hu, le_div_iff h0]; nlinarith
  have hu720 : u ≤ 720 / step := by
    rw [hu, div_le_div_iff h0 h0]; nlinarith
  set k : ℤ := ⌊u + 1/2⌋ with hk
  have hk_ub : (k : ℚ) ≤ u + 1/2 := Int.floor_le _
  have hk_lb : u - 1/2 < (k : ℚ) := by
    have := Int.lt_floor_add_one (u + 1/2)
    push_cast at this
    linarith
  have hk1 : 1 ≤ k := by
    have h : (1 : ℚ) ≤ (k : ℚ) := by linarith
    exact_mod_cast h
  have hkfloor : k ≤ ⌊(720 : ℚ) / step⌋ + 1 := by
    have h3 : k ≤ ⌊(720 : ℚ) / step + 1⌋ := by
      apply Int.le_floor.mpr
      push_cast
      linarith
    rwa [Int.floor_add_one] at h3
  have hfl0 : (0 : ℤ) ≤ ⌊(720 : ℚ) / step⌋ := Int.floor_nonneg.mpr (by positivity)
  have hknn : (0 : ℤ) ≤ k := by omega
  refine ⟨k.toNat, by omega, ?_, ?_⟩
  · unfold windowFuel; omega
  · have hcast : ((k.toNat : ℕ) : ℚ) = (k : ℚ) := by
      exact_mod_cast congrArg (Int.cast : ℤ → ℚ) (Int.toNat_of_nonneg hknn)
    set r := (k : ℚ) * step - (t + 360) with hr
    have hu_step : u * step = t + 360 := div_mul_cancel₀ _ h0.ne'
    have hr_ub : r ≤ step / 2 := by
      have h5 := mul_le_mul_of_nonneg_right hk_ub h0.le
      nlinarith
    have hr_lb : -(step / 2) ≤ r := by
      have h5 := mul_le_mul_of_nonneg_right hk_lb.le h0.le
      nlinarith
    have hm : t = (e - a) - 360 * ((⌊(e - a) / 360⌋ : ℤ) : ℚ) := by
      rw [ht]; unfold pymod; ring
    have hrew : a + ((k.toNat : ℕ) : ℚ) * step
        = (e + r) + 360 * (((1 - ⌊(e - a) / 360⌋ : ℤ)) : ℚ) := by
      rw [hcast, hr]
      push_cast
      push_cast at hm
      linarith
    rw [hrew, circ_diff_norm_left, circ_diff_norm_right, circ_diff_add_int_left,
      circ_diff_of_small e r (by linarith) (by linarith)]
    rw [abs_le]
    constructor <;> linarith

lemma windowListFrom_length_le (e step : ℚ) :
    ∀ (fuel : ℕ) (a : ℚ), (windowListFrom e step a fuel).length ≤ fuel := by
  intro fuel
  induction fuel with
  | zero => intro a; simp [windowListFrom]
  | succ n ih =>
    intro a
    by_cases hc : |circ_diff (normalize_deg (a + step)) e| ≤ step / 2
    · simp [windowListFrom, hc]
    · simpa [windowListFrom, hc] using ih (normalize_deg (a + step))

/-- If the stop condition is reachable within the fuel, the generated
window list is nonempty and ends at an angle within `step / 2` of the
window end — i.e. the generator stops by its own break, not by fuel. -/
lemma windowListFrom_stops (e step : ℚ) :
    ∀ (fuel : ℕ) (a : ℚ),
      (∃ i : ℕ, 1 ≤ i ∧ i ≤ fuel ∧
        |circ_diff (normalize_deg (a + (i : ℚ) * step)) e| ≤ step / 2) →
      windowListFrom e step a fuel ≠ [] ∧
        ∀ d, |circ_diff ((windowListFrom e step a fuel).getLastD d) e| ≤ step / 2 := by
  intro fuel
  induction fuel with
  | zero =>
    rintro a ⟨i, hi1, hi2, _⟩
    omega
  | succ n ih =>
    rintro a ⟨i, hi1, hi2, hstop⟩
    by_cases hc : |circ_diff (normalize_deg (a + step)) e| ≤ step / 2
    · refine ⟨by simp [windowListFrom, hc], ?_⟩
      intro d
      simpa [windowListFrom, hc] using hc
    · have hi2' : 2 ≤ i := by
        by_contra hlt
        have hone : i = 1 := by omega
        subst hone
        apply hc
        simpa using hstop
      have hex : ∃ j : ℕ, 1 ≤ j ∧ j ≤ n ∧
          |circ_diff (normalize_deg (normalize_deg (a + step) + (j : ℚ) * step)) e|
            ≤ step / 2 := by
        refine ⟨i - 1, by omega, by omega, ?_⟩
        rw [normalize_deg_add]
        have harg : a + step + ((i - 1 : ℕ) : ℚ) * step = a + (i : ℚ) * step := by
          rw [Nat.cast_sub hi1]
          push_cast
          ring
        rw [harg]
        exact hstop
      obtain ⟨hne, hlast⟩ := ih (normalize_deg (a + step)) hex
      have hred : windowListFrom e step a (n + 1)
          = normalize_deg (a + step)
            :: windowListFrom e step (normalize_deg (a + step)) n := by
        simp [windowListFrom, hc]
      refine ⟨by rw [hred]; simp, ?_⟩
      intro d
      rw [hred, List.getLastD_cons]
      exact hlast _

/-- C9: the `iter_window` generator of the Placidus root-finder always
stops by itself: with the fuel `windowFuel step` the produced angle list
is finite (length at most `windowFuel step + 1`) and its last element is
within half a step of the window end, i.e. the Python `while True` loop
reaches its break condition in a bounded number of steps.  The remaining
loops of the solver are fixed-count by construction (30 bisection
iterations in `bisectLoop`, 20 secant iterations in `secantLoop`, and the
guard-bounded dense scan in `sampleLoop`). -/
theorem iter_window_reaches_window_end (start end_ step : ℚ)
    (h0 : 0 < step) (h1 : step ≤ 1) :
    |circ_diff ((iter_window start end_ step (windowFuel step)).getLastD 0)
        (normalize_deg end_)| ≤ step / 2
  ∧ (iter_window start end_ step (windowFuel step)).length ≤ windowFuel step + 1 := by
  have hex := window_stop_exists (normalize_deg (start + step)) end_ step h0 h1
  obtain ⟨hne, hlast⟩ := windowListFrom_stops (normalize_deg end_) step (windowFuel step)
    (normalize_deg (start + step)) hex
  constructor
  · unfold iter_window
    rw [List.getLastD_cons]
    exact hlast _
  · unfold iter_window
    simp only [List.length_cons]
    have := windowListFrom_length_le (normalize_deg end_) step (windowFuel step)
      (normalize_deg (start + step))
    omega

/-- Witness for `iter_window_reaches_window_end` at a concrete window and
the coarse scan step `0.5`. -/
theorem iter_window_reaches_window_end_witness :
    |circ_diff ((iter_window 0 90 (1/2) (windowFuel (1/2))).getLastD 0)
        (normalize_deg 90)| ≤ 1/2 / 2
  ∧ (iter_window 0 90 (1/2) (windowFuel (1/2))).length ≤ windowFuel (1/2) + 1 :=
  iter_window_reaches_window_end 0 90 (1/2) (by norm_num) (by norm_num)

/-- A concrete trigonometric environment for counterexamples and
witnesses: right ascension and declination identically `0`, and a
semi-diurnal arc of `0` everywhere (never circumpolar).  Under it every
Placidus root equation is a nonzero constant, so the windowed scan never
sees a sign change while the dense-sampling fallback always returns a
value. -/
def oracleFlat : TrigOracle := ⟨fun _ => 0, fun _ => 0, fun _ _ => some 0⟩

lemma Fplacidus_flat (latitude n_frac base_ramc sign_factor : ℚ) (ud : Bool)
    (lam : ℚ) :
    Fplacidus oracleFlat latitude n_frac base_ramc sign_factor ud lam
      = some (circ_diff (normalize_deg base_ramc) 0) := by
  have h00 : normalize_deg 0 = 0 := by
    norm_num [normalize_deg, pymod]
  cases ud <;>
    simp [Fplacidus, oracleFlat, h00]

/-- On a constant nonzero equation the window scan of `solve_lambda_by_OA`
never finds a zero or a sign change, whatever the angle list. -/
lemma scanForRoot_const (F : ℚ → Option ℚ) (c : ℚ) (hF : ∀ x, F x = some c)
    (hc : c ≠ 0) :
    ∀ (l : List ℚ) (pl pv : Option ℚ), (pv = none ∨ pv = some c) →
      scanForRoot F pl pv l = none := by
  intro l
  induction l with
  | nil => intro pl pv _; rfl
  | cons lam rest ih =>
    intro pl pv hpv
    have hcc : ¬ c * c < 0 := not_lt.2 (mul_self_nonneg c)
    rcases hpv with h | h
    · subst h
      cases pl with
      | none =>
        simp only [scanForRoot, hF lam]
        exact ih (some lam) (some c) (Or.inr rfl)
      | some p =>
        simp only [scanForRoot, hF lam]
        exact ih (some lam) (some c) (Or.inr rfl)
    · subst h
      cases pl with
      | none =>
        simp only [scanForRoot, hF lam]
        exact ih (some lam) (some c) (Or.inr rfl)
      | some p =>
        simp only [scanForRoot, hF lam]
        rw [if_neg hc, if_neg hc, if_neg hcc]
        exact ih (some lam) (some c) (Or.inr rfl)

lemma solve_lambda_by_OA_const (F : ℚ → Option ℚ) (c : ℚ) (hF : ∀ x, F x = some c)
    (hc : c ≠ 0) (win_start win_end init_step_deg : ℚ) :
    solve_lambda_by_OA F win_start win_end init_step_deg = none := by
  unfold solve_lambda_by_OA
  exact scanForRoot_const F c hF hc _ none none (Or.inl rfl)

lemma bestUpd_ne_none (Fv : ℚ → ℚ → Option ℚ) (c : ℚ)
    (hF : ∀ x s, Fv x s = some c) (angle : ℚ) (b : Option (ℚ × ℚ × ℚ)) (s : ℚ) :
    bestUpd Fv angle b s ≠ none := by
  unfold bestUpd
  rw [hF angle s]
  rcases b with _ | ⟨bf, bl, bs⟩
  · simp
  · by_cases hlt : |c| < bf <;> simp [hlt]

lemma sampleLoop_const_ne_none (Fv : ℚ → ℚ → Option ℚ) (c : ℚ)
    (hF : ∀ x s, Fv x s = some c) (end_n sample_step : ℚ) :
    ∀ (fuel : ℕ) (angle : ℚ) (b : Option (ℚ × ℚ × ℚ)),
      (b ≠ none ∨ fuel ≠ 0) →
      sampleLoop Fv [1, -1] end_n sample_step angle b fuel ≠ none := by
  intro fuel
  induction fuel with
  | zero =>
    intro angle b hb
    rcases hb with h | h
    · simpa [sampleLoop] using h
    · omega
  | succ n ih =>
    intro angle b hb
    have h2 : [1, -1].foldl (bestUpd Fv angle) b ≠ none := by
      simp only [List.foldl]
      exact bestUpd_ne_none Fv c hF angle _ (-1)
    by_cases hstop : |circ_diff (normalize_deg (angle + sample_step)) end_n|
        ≤ sample_step / 2
    · simpa [sampleLoop, hstop] using h2
    · simp only [sampleLoop, hstop, if_false]
      exact ih (normalize_deg (angle + sample_step)) _ (Or.inl h2)

/-- On a constant (everywhere-defined) equation the dense-sampling
fallback of `solve_with_fallback` always produces a value. -/
lemma solve_with_fallback_const (Fv : ℚ → ℚ → Option ℚ) (c : ℚ)
    (hF : ∀ x s, Fv x s = some c) (win_start win_end sample_step : ℚ) :
    ∃ v, solve_with_fallback Fv win_start win_end sample_step = some v := by
  unfold solve_with_fallback
  have h2 := sampleLoop_const_ne_none Fv c hF (normalize_deg win_end) sample_step
    ((⌊(360 : ℚ) / sample_step⌋).toNat + 6) (normalize_deg win_start) none
    (Or.inr (by omega))
  cases hs : sampleLoop Fv [1, -1] (normalize_deg win_end) sample_step
      (normalize_deg win_start) none ((⌊(360 : ℚ) / sample_step⌋).toNat + 6) with
  | none => exact absurd hs h2
  | some triple =>
    obtain ⟨af, lam0, s0⟩ := triple
    simp only [hs]
    rw [hF lam0 s0, hF (normalize_deg (lam0 + sample_step)) s0]
    exact ⟨_, rfl⟩

/-- When cusp 11 was not solved, house 11 falls back to the Equal value
`normalize_deg (asc + 300)`. -/
lemma number_to_long_11_of_c11_none (asc_longitude mc_longitude : ℚ)
    (s : PlacidusSolved) (h : s.c11 = none) :
    number_to_long asc_longitude mc_longitude s 11
      = normalize_deg (asc_longitude + 10 * 30) := by
  obtain ⟨c11, c12, c3, c2⟩ := s
  simp only at h
  subst h
  show equal_fallback asc_longitude ((11 - 1) % 12) = _
  unfold equal_fallback
  norm_num

/-- C5 counterexample: for cusp 11 the dense-sampling fallback is *not*
attempted.  In the `oracleFlat` environment the cusp-11 root equation is
the nonzero constant `7`, so the windowed scan fails and
`placidusSolved` leaves cusp 11 missing (`none`), and house 11 is filled
with the Equal value 300; yet `solve_with_fallback` invoked with cusp
11's own parameters would have produced a value. -/
theorem placidus_cusp11_fallback_not_attempted :
    (placidusSolved oracleFlat 35 0 90 7).c11 = none
  ∧ (∃ v, solve_with_fallback
        (fun lam s => Fplacidus oracleFlat 35 (2/3) 7 s false lam)
        (win_ccw (normalize_deg 90) (normalize_deg 0)).1
        (win_ccw (normalize_deg 90) (normalize_deg 0)).2 (1/20) = some v)
  ∧ number_to_long 0 90 (placidusSolved oracleFlat 35 0 90 7) 11 = 300 := by
  have hF : ∀ (x s : ℚ), Fplacidus oracleFlat 35 (2/3) 7 s false x = some 7 := by
    intro x s
    rw [Fplacidus_flat]
    norm_num [circ_diff, normalize_deg, pymod]
  have hc11 : (placidusSolved oracleFlat 35 0 90 7).c11 = none := by
    show solve_lambda_by_OA (Fplacidus oracleFlat 35 (2/3) 7 1 false)
      (win_ccw (normalize_deg 90) (normalize_deg 0)).1
      (win_ccw (normalize_deg 90) (normalize_deg 0)).2 (1/2) = none
    exact solve_lambda_by_OA_const _ 7 (fun x => hF x 1) (by norm_num) _ _ _
  refine ⟨hc11, solve_with_fallback_const _ 7 hF _ _ _, ?_⟩
  rw [number_to_long_11_of_c11_none 0 90 _ hc11]
  norm_num [normalize_deg, pymod]

/-- C5 amended: the dense-sampling fallback is attempted only for cusps 3
and 2.  Cusp 11 is always the bare windowed-scan result and cusp 12 the
bare scan over the narrowed window (no fallback ever runs for them),
while for cusps 3 and 2 a failed scan is followed by
`solve_with_fallback` on the same window with step 0.05, both sign
options, argmin and secant refinement. -/
theorem placidus_fallback_only_cusps_3_2 (o : TrigOracle)
    (latitude asc_longitude mc_longitude ramc : ℚ) :
    ((placidusSolved o latitude asc_longitude mc_longitude ramc).c11
      = solve_lambda_by_OA (Fplacidus o latitude (2/3) ramc 1 false)
          (win_ccw (normalize_deg mc_longitude) (normalize_deg asc_longitude)).1
          (win_ccw (normalize_deg mc_longitude) (normalize_deg asc_longitude)).2 (1/2))
  ∧ ((placidusSolved o latitude asc_longitude mc_longitude ramc).c12
      = solve_lambda_by_OA (Fplacidus o latitude (1/3) ramc 1 false)
          (((placidusSolved o latitude asc_longitude mc_longitude ramc).c11).getD
            (win_ccw (normalize_deg mc_longitude) (normalize_deg asc_longitude)).1)
          (win_ccw (normalize_deg mc_longitude) (normalize_deg asc_longitude)).2 (1/2))
  ∧ (solve_lambda_by_OA (Fplacidus o latitude (2/3) (ramc + 180) 1 true)
        (win_ccw (normalize_deg asc_longitude)
          (normalize_deg (normalize_deg mc_longitude + 180))).1
        (win_ccw (normalize_deg asc_longitude)
          (normalize_deg (normalize_deg mc_longitude + 180))).2 (1/10) = none →
      (placidusSolved o latitude asc_longitude mc_longitude ramc).c3
        = solve_with_fallback
            (fun lam s => Fplacidus o latitude (2/3) (ramc + 180) s true lam)
            (win_ccw (normalize_deg asc_longitude)
              (normalize_deg (normalize_deg mc_longitude + 180))).1
            (win_ccw (normalize_deg asc_longitude)
              (normalize_deg (normalize_deg mc_longitude + 180))).2 (1/20))
  ∧ (solve_lambda_by_OA (Fplacidus o latitude (1/3) (ramc + 180) 1 true)
        (win_ccw (normalize_deg asc_longitude)
          (normalize_deg (normalize_deg mc_longitude + 180))).1
        (((placidusSolved o latitude asc_longitude mc_longitude ramc).c3).getD
          (win_ccw (normalize_deg asc_longitude)
            (normalize_deg (normalize_deg mc_longitude + 180))).2) (1/10) = none →
      (placidusSolved o latitude asc_longitude mc_longitude ramc).c2
        = solve_with_fallback
            (fun lam s => Fplacidus o latitude (1/3) (ramc + 180) s true lam)
            (win_ccw (normalize_deg asc_longitude)
              (normalize_deg (normalize_deg mc_longitude + 180))).1
            (((placidusSolved o latitude asc_longitude mc_longitude ramc).c3).getD
              (win_ccw (normalize_deg asc_longitude)
                (normalize_deg (normalize_deg mc_longitude + 180))).2) (1/20)) := by
  refine ⟨rfl, rfl, ?_, ?_⟩
  · intro h
    show orFallback
      (solve_lambda_by_OA (Fplacidus o latitude (2/3) (ramc + 180) 1 true)
        (win_ccw (normalize_deg asc_longitude)
          (normalize_deg (normalize_deg mc_longitude + 180))).1
        (win_ccw (normalize_deg asc_longitude)
          (normalize_deg (normalize_deg mc_longitude + 180))).2 (1/10))
      (solve_with_fallback
        (fun lam s => Fplacidus o latitude (2/3) (ramc + 180) s true lam)
        (win_ccw (normalize_deg asc_longitude)
          (normalize_deg (normalize_deg mc_longitude + 180))).1
        (win_ccw (normalize_deg asc_longitude)
          (normalize_deg (normalize_deg mc_longitude + 180))).2 (1/20)) = _
    rw [h]
    rfl
  · intro h
    show orFallback
      (solve_lambda_by_OA (Fplacidus o latitude (1/3) (ramc + 180) 1 true)
        (win_ccw (normalize_deg asc_longitude)
          (normalize_deg (normalize_deg mc_longitude + 180))).1
        (((placidusSolved o latitude asc_longitude mc_longitude ramc).c3).getD
          (win_ccw (normalize_deg asc_longitude)
            (normalize_deg (normalize_deg mc_longitude + 180))).2) (1/10))
      (solve_with_fallback
        (fun lam s => Fplacidus o latitude (1/3) (ramc + 180) s true lam)
        (win_ccw (normalize_deg asc_longitude)
          (normalize_deg (normalize_deg mc_longitude + 180))).1
        (((placidusSolved o latitude asc_longitude mc_longitude ramc).c3).getD
          (win_ccw (normalize_deg asc_longitude)
            (normalize_deg (normalize_deg mc_longitude + 180))).2) (1/20)) = _
    rw [h]
    rfl

/-- Witness for `placidus_fallback_only_cusps_3_2`: the cusp-3 implication
discharged in the `oracleFlat` environment, where the cusp-3 scan provably
fails. -/
theorem placidus_fallback_only_cusps_3_2_witness :
    (placidusSolved oracleFlat 35 10 100 7).c3
      = solve_with_fallback
          (fun lam s => Fplacidus oracleFlat 35 (2/3) (7 + 180) s true lam)
          (win_ccw (normalize_deg 10)
            (normalize_deg (normalize_deg 100 + 180))).1
          (win_ccw (normalize_deg 10)
            (normalize_deg (normalize_deg 100 + 180))).2 (1/20) :=
  (placidus_fallback_only_cusps_3_2 oracleFlat 35 10 100 7).2.2.1
    (solve_lambda_by_OA_const _ (-173)
      (fun x => by rw [Fplacidus_flat]; norm_num [circ_diff, normalize_deg, pymod])
      (by norm_num) _ _ _)

/-- C7 counterexample: at latitude 100 — outside `[-90, 90]` — the
formula path of `calculate_houses` still returns a complete 12-cusp
result instead of propagating an input error: the source contains no
latitude-range validation (neither in `calculate_houses` nor in the
`app.py` caller, which only checks presence of the parameters). -/
theorem latitude_out_of_range_still_returns_houses :
    ((calculate_houses_formula oracleFlat "placidus" 100 50 140 60).houses).length = 12
  ∧ ((calculate_houses_formula oracleFlat "placidus" 100 50 140 60).houses).map House.number
      = [1, 2, 3, 4, 5, 6, 7, 8, 9, 10, 11, 12] := by
  constructor
  · simp only [calculate_houses_formula]
    rw [if_neg (by decide), if_neg (by decide)]
    simp [placidusHouses]
  · simp only [calculate_houses_formula]
    rw [if_neg (by decide), if_neg (by decide)]
    simp only [placidusHouses, List.map_map]
    rfl

/-- C7 amended: `calculate_houses` performs no latitude-range validation:
for every latitude outside `[-90, 90]` the formula path still computes
and returns a 12-entry houses list (the latitude is merely fed to the
Placidus root equation like any other value). -/
theorem out_of_range_latitude_not_rejected (o : TrigOracle) (system : String)
    (latitude asc_longitude mc_longitude ramc : ℚ)
    (hlat : latitude < -90 ∨ 90 < latitude) :
    (calculate_houses_formula o system latitude asc_longitude mc_longitude ramc).houses.length
      = 12 := by
  by_cases he : system = "equal"
  · subst he
    simp [calculate_houses_formula, equalHouses]
  · by_cases hko : system = "koch"
    · subst hko
      simp [calculate_houses_formula, kochHouses, kochCusps]
    · simp [calculate_houses_formula, he, hko, placidusHouses]

/-- Witness for `out_of_range_latitude_not_rejected` at latitude `-95`. -/
theorem out_of_range_latitude_not_rejected_witness :
    (calculate_houses_formula oracleFlat "koch" (-95) 10 20 30).houses.length = 12 :=
  out_of_range_latitude_not_rejected oracleFlat "koch" (-95) 10 20 30
    (Or.inl (by norm_num))

end CalculateHouses
